import Mathlib

/-
Verification of the map-marking application (src/app.js) against its
natural-language specification.

The development shallowly embeds the parts of the program the claims are
about:

* the marker registry (`markedCities`, `addCity`, `removeCity`,
  `isCityMarked`),
* the coordinate projector `geoToSvg` together with its configuration
  constants,
* the two in-place sorts of `markedCities` (the latitude/longitude sort in
  `updateCityMarkers` and the name sort `compareNames`),
* the selection codec (`updateShareURL`, `restoreFromURL`, and the browser
  builtins `encodeURIComponent` / `decodeURIComponent`),
* the label-placement ring search of `updateCityMarkers` and the
  axis-aligned rectangle test `overlap`.

Numbers: the JavaScript source computes with IEEE doubles; the claims are
about the real-number formulas those computations implement, so geographic
data and the projector are embedded over `ℚ` (all of their arithmetic is
rational) and the placement geometry over `ℝ` (it uses `Math.sin` /
`Math.cos`).
-/

/-- GeoPoint of the catalog / registry: `{ name, lat, lon }`. -/
structure City where
  name : String
  lat : ℚ
  lon : ℚ
deriving DecidableEq

/-- Axis-aligned bounding box as returned by `getBBox()`:
`{x, y, width, height}`. -/
structure Rect where
  x : ℝ
  y : ℝ
  width : ℝ
  height : ℝ

/-- Source `overlap(a, b)` (src/app.js lines 223-230): axis-aligned
rectangle intersection with strict inequalities on both axes. -/
def overlap (a b : Rect) : Prop :=
  a.x < b.x + b.width ∧ a.x + a.width > b.x ∧
  a.y < b.y + b.height ∧ a.y + a.height > b.y

/- ----------------------------------------------------------------- -/
/- Marker registry (src/app.js lines 48-50, 97-110)                   -/
/- ----------------------------------------------------------------- -/

/-- Source `isCityMarked(name)`: `markedCities.some(c => c.name === name)`. -/
def isCityMarked (markedCities : List City) (name : String) : Bool :=
  markedCities.any (fun c => c.name == name)

/-- Source `addCity(city)`: no-op when the name is already marked,
otherwise push onto `markedCities`. -/
def addCity (markedCities : List City) (city : City) : List City :=
  if isCityMarked markedCities city.name then markedCities
  else markedCities ++ [city]

/-- Source `removeCity(cityName)`:
`markedCities = markedCities.filter(c => c.name !== cityName)`. -/
def removeCity (markedCities : List City) (cityName : String) : List City :=
  markedCities.filter (fun c => c.name != cityName)

/- ----------------------------------------------------------------- -/
/- Coordinate projector (src/app.js lines 1-8, 113-119)               -/
/- ----------------------------------------------------------------- -/

def MAP_PAD_X : ℚ := 0
def MAP_PAD_Y : ℚ := 0
def MAP_HEIGHT : ℚ := 800
def MAP_WIDTH : ℚ := 600
def MAP_MIN_LON : ℚ := 5.866 - 0.12
def MAP_MAX_LON : ℚ := 15.042 + 0.32
def MAP_MIN_LAT : ℚ := 47.270 - 0.04
def MAP_MAX_LAT : ℚ := 55.059 + 0.16

/-- Source `geoToSvg(lat, lon)`: linear (equirectangular) projection of a
geographic point into SVG viewBox coordinates. -/
def geoToSvg (lat lon : ℚ) : ℚ × ℚ :=
  (-MAP_PAD_X / 2 + ((lon - MAP_MIN_LON) / (MAP_MAX_LON - MAP_MIN_LON)) * MAP_WIDTH,
   MAP_PAD_Y / 2 + MAP_HEIGHT - ((lat - MAP_MIN_LAT) / (MAP_MAX_LAT - MAP_MIN_LAT)) * MAP_HEIGHT)

/-- SurfaceRect of the spec's data model: the target rendering rectangle.
With the source's `MAP_PAD_X = MAP_PAD_Y = 0` the drawing area is the
rectangle at the origin with the configured width and height. -/
structure SurfaceRect where
  x : ℚ
  y : ℚ
  width : ℚ
  height : ℚ

def surface : SurfaceRect := ⟨0, 0, MAP_WIDTH, MAP_HEIGHT⟩

/- ----------------------------------------------------------------- -/
/- The two in-place sorts of markedCities                             -/
/- ----------------------------------------------------------------- -/

/-- Model of the JavaScript `<` comparison on strings: lexicographic
comparison of the code-unit sequences (identical to code-point order for
the basic multilingual plane, which covers every catalog name). -/
def charListLtb : List Char → List Char → Bool
  | [], [] => false
  | [], _ :: _ => true
  | _ :: _, [] => false
  | a :: as, b :: bs =>
    if a.toNat < b.toNat then true
    else if b.toNat < a.toNat then false
    else charListLtb as bs

def strLtb (a b : String) : Bool :=
  charListLtb a.data b.data

/-- Model of JavaScript `Array.prototype.sort(cmp)` for a consistent
comparator `cmp` (negative means the first argument comes strictly first).
ECMAScript mandates a stable sort; for a consistent comparator every
stable comparison sort computes the same list, so the model uses
Mathlib's (stable) insertion sort with the reflexive relation
`a before-or-tied b`, which inserts later-arriving elements after their
ties exactly as a stable sort does. -/
def jsSortWith {α : Type} (cmp : α → α → ℚ)
    [DecidableRel (fun a b => cmp a b < 0)] (l : List α) : List α :=
  List.insertionSort (fun a b => ¬ cmp b a < 0) l

/-- Source comparator of the render sort (src/app.js lines 130-133):
`(a, b) => { if (b.lat !== a.lat) return b.lat - a.lat; return a.lon - b.lon; }`
(descending latitude, then ascending longitude; no further tiebreak). -/
def cmpCities (a b : City) : ℚ :=
  if b.lat ≠ a.lat then b.lat - a.lat else a.lon - b.lon

/-- The sort performed at the start of every render pass
(src/app.js line 130): `markedCities.sort(cmpCities)`. -/
def sortCities (l : List City) : List City :=
  jsSortWith cmpCities l

/-- Source `compareNames(a, b)` (src/app.js lines 37-41): -1 when
`a.name < b.name`, 1 when `a.name > b.name`, else 0, with `<` the
JavaScript string comparison. -/
def compareNames (a b : City) : ℚ :=
  if strLtb a.name b.name then -1 else if strLtb b.name a.name then 1 else 0

/-- The name sort used by the city list and the share URL:
`markedCities.sort(compareNames)`. -/
def sortByName (l : List City) : List City :=
  jsSortWith compareNames l

/-- Comparator of JavaScript default `names.sort()` on strings
(lexicographic comparison). -/
def strCmp (a b : String) : ℚ :=
  if strLtb a b then -1 else if strLtb b a then 1 else 0

def sortStrings (l : List String) : List String :=
  jsSortWith strCmp l

/- ----------------------------------------------------------------- -/
/- Selection codec (src/app.js lines 269-279, 294-309)                -/
/- ----------------------------------------------------------------- -/

/-- Hex digit (uppercase) used by percent-escaping. -/
def hexDigit (n : ℕ) : Char :=
  if n < 10 then Char.ofNat (48 + n) else Char.ofNat (55 + n)

/-- UTF-8 bytes of a character (by scalar-value ranges). -/
def utf8Bytes (c : Char) : List ℕ :=
  let n := c.toNat
  if n < 128 then [n]
  else if n < 2048 then [192 + n / 64, 128 + n % 64]
  else if n < 65536 then [224 + n / 4096, 128 + (n / 64) % 64, 128 + n % 64]
  else [240 + n / 262144, 128 + (n / 4096) % 64, 128 + (n / 64) % 64, 128 + n % 64]

def byteToPercent (b : ℕ) : String :=
  "%" ++ String.singleton (hexDigit (b / 16)) ++ String.singleton (hexDigit (b % 16))

/-- Characters the ECMAScript builtin `encodeURIComponent` leaves
unescaped: alphanumeric and `- _ . ! ~ * ' ( )`. -/
def isUnreservedURI (c : Char) : Bool :=
  c.isAlphanum || c = '-' || c = '_' || c = '.' || c = '!' || c = '~' ||
    c = '*' || c = Char.ofNat 39 || c = '(' || c = ')'

/-- Model of the browser builtin `encodeURIComponent`: unreserved
characters pass through, every other character is replaced by the
percent-escapes of its UTF-8 bytes. -/
def encodeURIComponent (s : String) : String :=
  String.join (s.data.map (fun c =>
    if isUnreservedURI c then String.singleton c
    else String.join ((utf8Bytes c).map byteToPercent)))

def hexVal (c : Char) : Option ℕ :=
  if 48 ≤ c.toNat ∧ c.toNat ≤ 57 then some (c.toNat - 48)
  else if 65 ≤ c.toNat ∧ c.toNat ≤ 70 then some (c.toNat - 55)
  else if 97 ≤ c.toNat ∧ c.toNat ≤ 102 then some (c.toNat - 87)
  else none

/-- Percent-decoding to a byte sequence: a `%` followed by two hex digits
becomes that byte, every other character contributes its UTF-8 bytes.
(The browser builtin throws `URIError` on a malformed escape; the model
emits the characters of the malformed escape literally instead — no claim
exercises malformed escapes.) -/
def percentDecode : List Char → List ℕ
  | [] => []
  | c :: rest =>
    if c = '%' then
      match rest with
      | h1 :: h2 :: rest2 =>
        match hexVal h1, hexVal h2 with
        | some a, some b => (16 * a + b) :: percentDecode rest2
        | _, _ => utf8Bytes c ++ utf8Bytes h1 ++ utf8Bytes h2 ++ percentDecode rest2
      | [h1] => utf8Bytes c ++ utf8Bytes h1
      | [] => utf8Bytes c
    else utf8Bytes c ++ percentDecode rest

/-- UTF-8 decoding of a byte sequence (permissive on malformed input). -/
def utf8Decode : List ℕ → List Char
  | [] => []
  | b :: rest =>
    if b < 128 then Char.ofNat b :: utf8Decode rest
    else if b < 224 then
      match rest with
      | b2 :: rest2 => Char.ofNat ((b % 32) * 64 + b2 % 64) :: utf8Decode rest2
      | [] => []
    else if b < 240 then
      match rest with
      | b2 :: b3 :: rest3 =>
        Char.ofNat ((b % 16) * 4096 + (b2 % 64) * 64 + b3 % 64) :: utf8Decode rest3
      | _ => []
    else
      match rest with
      | b2 :: b3 :: b4 :: rest4 =>
        Char.ofNat ((b % 8) * 262144 + (b2 % 64) * 4096 + (b3 % 64) * 64 + b4 % 64) ::
          utf8Decode rest4
      | _ => []

/-- Model of the browser builtin `decodeURIComponent`. -/
def decodeURIComponent (s : String) : String :=
  String.mk (utf8Decode (percentDecode s.data))

/-- Source `updateShareURL()` (src/app.js lines 269-279), modelled as the
value of the `cities` query parameter: when `markedCities` is empty the
URL is replaced by the bare pathname, i.e. the parameter is absent
(`none`); otherwise `markedCities` is sorted with `compareNames` and the
percent-escaped names are comma-joined. -/
def updateShareURL (markedCities : List City) : Option String :=
  if markedCities.length = 0 then none
  else
    some (String.intercalate ","
      ((sortByName markedCities).map (fun c => encodeURIComponent c.name)))

/-- Model of JavaScript `urlCities.split(',')`. -/
def splitCommaAux : List Char → List Char → List String
  | [], acc => [String.mk acc.reverse]
  | c :: rest, acc =>
    if c = ',' then String.mk acc.reverse :: splitCommaAux rest []
    else splitCommaAux rest (c :: acc)

def splitOnComma (s : String) : List String :=
  splitCommaAux s.data []

/-- Source `restoreFromURL()` (src/app.js lines 294-309), modelled on a
present `cities` parameter value: split on commas, percent-unescape each
token, sort the names (JavaScript default string sort), and keep, in that
order, the catalog entry found for each name; names without an exact
catalog match are skipped. -/
def restoreFromURL (urlCities : String) (cities : List City) : List City :=
  let names := (splitOnComma urlCities).map decodeURIComponent
  (sortStrings names).filterMap (fun n => cities.find? (fun c => c.name == n))

/- Concrete catalog entries used by witnesses and counterexamples
(coordinates rounded to whole degrees; only their relative order
matters: Berlin lies north of Aachen, and ascending name order is the
reverse of descending latitude order for this pair). -/

def berlin : City := ⟨"Berlin", 52, 13⟩
def aachen : City := ⟨"Aachen", 51, 6⟩
def munich : City := ⟨"Munich", 48, 12⟩
def cityA : City := ⟨"A", 50, 10⟩
def cityB : City := ⟨"B", 50, 10⟩

/- ----------------------------------------------------------------- -/
/- Label placement engine (src/app.js lines 157-216)                  -/
/- ----------------------------------------------------------------- -/

/-- Model of `label.getBBox()` for an SVG text node of fixed rendered
size `w × h` whose `x` attribute (left edge) is `lx` and whose `y`
attribute (baseline) is `ly`: the box spans one text height above the
baseline. Text measurement is the spec's external collaborator; the
claims hold for any translation-invariant measurement, and this is its
canonical instance. -/
def textBBox (lx ly w h : ℝ) : Rect :=
  ⟨lx, ly - h, w, h⟩

/-- Source candidate offsets (src/app.js lines 192-194):
`theta = (tries+6) * 2*PI/12; dx = -rx*sin(theta); dy = ry*cos(theta)`.
SVG y grows downward, so a negative second component is an upward
offset. -/
noncomputable def ringOffset (rx ry : ℝ) (k : ℕ) : ℝ × ℝ :=
  ((-rx) * Real.sin (((k : ℝ) + 6) * (2 * Real.pi) / 12),
   ry * Real.cos (((k : ℝ) + 6) * (2 * Real.pi) / 12))

/-- The measured bounding box of the label at ring candidate `k` for a
marker anchored at `(x, y)` with label size `w × h`
(src/app.js lines 158-159 and 192-205): semi-axes `rx = w/2 + 10`,
`ry = h/2 + 10`, label left edge `x + dx - w/2`, baseline
`y + dy + h/2`. -/
noncomputable def ringCandidates (x y w h : ℝ) (k : ℕ) : Rect :=
  let rx := w / 2 + 10
  let ry := h / 2 + 10
  let d := ringOffset rx ry k
  textBBox (x + d.1 - w / 2) (y + d.2 + h / 2) w h

/- Source while loop (src/app.js lines 189-214): starting at `tries`,
with the label currently measuring `last`, try candidates while
`tries < 12 && !found`; a candidate overlapping some accumulated box is
rejected (`bboxes.some(other => overlap(other, labelBbox))`), the first
free candidate is accepted, and when the tries run out the label simply
stays at the last candidate positioned. -/
open Classical in
noncomputable def placeLoop (bboxes : List Rect) (cand : ℕ → Rect)
    (tries : ℕ) (last : Rect) : Rect :=
  if h : tries < 12 then
    if hov : ∃ b ∈ bboxes, overlap b (cand tries) then
      placeLoop bboxes cand (tries + 1) (cand tries)
    else cand tries
  else last
termination_by 12 - tries
decreasing_by omega

/-- One whole placement (the loop entered with `tries = 0`, the label
still measured at its initial position `(x, y)`): the bounding box pushed
onto `bboxes` for this marker. -/
noncomputable def place (x y w h : ℝ) (bboxes : List Rect) : Rect :=
  placeLoop bboxes (ringCandidates x y w h) 0 (textBBox x y w h)

/-- One marker's inputs to placement: projected anchor and measured label
size. -/
structure LabelJob where
  x : ℝ
  y : ℝ
  w : ℝ
  h : ℝ

/-- The `markedCities.forEach` of `updateCityMarkers`
(src/app.js lines 134-220), restricted to its collision state: each
marker's accepted box is appended to the accumulated `bboxes`. -/
noncomputable def renderPass : List Rect → List LabelJob → List Rect
  | bboxes, [] => bboxes
  | bboxes, j :: js => renderPass (bboxes ++ [place j.x j.y j.w j.h bboxes]) js

/-- The per-marker placement inputs of a render pass: cities in the order
of the render sort, each projected with `geoToSvg` and measured by the
external text-measurement collaborator `measure`. -/
noncomputable def jobsOf (measure : String → ℝ × ℝ) (cities : List City) :
    List LabelJob :=
  (sortCities cities).map (fun c =>
    { x := ((geoToSvg c.lat c.lon).1 : ℝ), y := ((geoToSvg c.lat c.lon).2 : ℝ),
      w := (measure c.name).1, h := (measure c.name).2 })

/-- Source `updateCityMarkers()` (src/app.js lines 122-221) reduced to
its collision state: the final list `bboxes` of accepted label bounding
boxes of one render pass. -/
noncomputable def updateCityMarkers (measure : String → ℝ × ℝ)
    (cities : List City) : List Rect :=
  renderPass [] (jobsOf measure cities)

/-- A candidate box is collision-free for the accumulated context:
no accumulated box overlaps it (the loop's `!doOverlap`). -/
def NoOverlap (bboxes : List Rect) (r : Rect) : Prop :=
  ∀ b ∈ bboxes, ¬ overlap b r

/-- At every placement step of a pass, at least one of the 12 ring
candidates is collision-free for the context accumulated so far. -/
inductive FeasiblePass : List Rect → List LabelJob → Prop where
  | nil : ∀ bboxes, FeasiblePass bboxes []
  | cons : ∀ bboxes j js,
      (∃ k, k < 12 ∧ NoOverlap bboxes (ringCandidates j.x j.y j.w j.h k)) →
      FeasiblePass (bboxes ++ [place j.x j.y j.w j.h bboxes]) js →
      FeasiblePass bboxes (j :: js)

lemma not_noOverlap_iff (bboxes : List Rect) (r : Rect) :
    ¬ NoOverlap bboxes r ↔ ∃ b ∈ bboxes, overlap b r := by
  simp [NoOverlap]

lemma placeLoop_first (bboxes : List Rect) (cand : ℕ → Rect) :
    ∀ (d k : ℕ) (last : Rect) (j : ℕ), j - k = d → k ≤ j → j < 12 →
      NoOverlap bboxes (cand j) →
      (∀ i, k ≤ i → i < j → ¬ NoOverlap bboxes (cand i)) →
      placeLoop bboxes cand k last = cand j := by
  intro d
  induction d with
  | zero =>
    intro k last j hd hk hj hfree hblock
    have hkj : k = j := by omega
    subst hkj
    rw [placeLoop, dif_pos hj, dif_neg]
    exact fun hex => by
      obtain ⟨b, hb, hov⟩ := hex
      exact hfree b hb hov
  | succ d ih =>
    intro k last j hd hk hj hfree hblock
    have hkj : k < j := by omega
    have hk12 : k < 12 := by omega
    rw [placeLoop, dif_pos hk12,
      dif_pos ((not_noOverlap_iff bboxes (cand k)).mp (hblock k (le_refl k) hkj))]
    exact ih (k + 1) (cand k) j (by omega) (by omega) hj hfree
      (fun i h1 h2 => hblock i (by omega) h2)

lemma placeLoop_fallback (bboxes : List Rect) (cand : ℕ → Rect) :
    ∀ (d k : ℕ) (last : Rect), 12 - k = d → k < 12 →
      (∀ i, i < 12 → ¬ NoOverlap bboxes (cand i)) →
      placeLoop bboxes cand k last = cand 11 := by
  intro d
  induction d with
  | zero =>
    intro k last hd hk hall
    exact absurd hd (by omega)
  | succ d ih =>
    intro k last hd hk hall
    rw [placeLoop, dif_pos hk,
      dif_pos ((not_noOverlap_iff bboxes (cand k)).mp (hall k hk))]
    by_cases h12 : k + 1 < 12
    · exact ih (k + 1) (cand k) (by omega) h12 hall
    · have hk11 : k = 11 := by omega
      subst hk11
      rw [placeLoop, dif_neg (by omega)]

lemma placeLoop_free (bboxes : List Rect) (cand : ℕ → Rect) :
    ∀ (d k : ℕ) (last : Rect), 12 - k = d → k < 12 →
      (∃ j, k ≤ j ∧ j < 12 ∧ NoOverlap bboxes (cand j)) →
      NoOverlap bboxes (placeLoop bboxes cand k last) := by
  intro d
  induction d with
  | zero =>
    intro k last hd hk hex
    exact absurd hd (by omega)
  | succ d ih =>
    intro k last hd hk hex
    by_cases hfree : NoOverlap bboxes (cand k)
    · rw [placeLoop, dif_pos hk, dif_neg]
      · exact hfree
      · exact fun hex2 => by
          obtain ⟨b, hb, hov⟩ := hex2
          exact hfree b hb hov
    · obtain ⟨j, hkj, hj12, hjfree⟩ := hex
      have hjk : j ≠ k := fun hjeq => hfree (hjeq ▸ hjfree)
      have hk1 : k + 1 < 12 := by omega
      rw [placeLoop, dif_pos hk,
        dif_pos ((not_noOverlap_iff bboxes (cand k)).mp hfree)]
      exact ih (k + 1) (cand k) (by omega) hk1 ⟨j, by omega, hj12, hjfree⟩

lemma renderPass_pairwise :
    ∀ (js : List LabelJob) (bboxes : List Rect),
      List.Pairwise (fun a b => ¬ overlap a b) bboxes →
      FeasiblePass bboxes js →
      List.Pairwise (fun a b => ¬ overlap a b) (renderPass bboxes js) := by
  intro js
  induction js with
  | nil =>
    intro bboxes h hf
    simpa [renderPass] using h
  | cons j js ih =>
    intro bboxes h hf
    cases hf with
    | cons _ _ _ hex hrest =>
      have hfree : NoOverlap bboxes (place j.x j.y j.w j.h bboxes) := by
        obtain ⟨k, hk, hkfree⟩ := hex
        exact placeLoop_free bboxes (ringCandidates j.x j.y j.w j.h) 12 0
          (textBBox j.x j.y j.w j.h) rfl (by omega) ⟨k, Nat.zero_le k, hk, hkfree⟩
      have h2 : List.Pairwise (fun a b => ¬ overlap a b)
          (bboxes ++ [place j.x j.y j.w j.h bboxes]) := by
        rw [List.pairwise_append]
        refine ⟨h, List.pairwise_singleton _ _, ?_⟩
        intro a ha b hb
        rw [List.mem_singleton] at hb
        subst hb
        exact hfree a ha
      simpa [renderPass] using ih (bboxes ++ [place j.x j.y j.w j.h bboxes]) h2 hrest

/-- C1: for every render pass over any sequence of markers, if at every
placement step at least one of the 12 ring candidates has a bounding box
that does not overlap any box already accumulated in the collision
context of that pass, then the final list of accepted label bounding
boxes of the pass is pairwise non-overlapping under the strict
axis-aligned intersection test. -/
theorem updateCityMarkers_no_collision :
    ∀ (measure : String → ℝ × ℝ) (cities : List City),
      FeasiblePass [] (jobsOf measure cities) →
      List.Pairwise (fun a b => ¬ overlap a b) (updateCityMarkers measure cities) := by
  intro measure cities hf
  exact renderPass_pairwise (jobsOf measure cities) [] List.Pairwise.nil hf

lemma feasiblePass_singleton (j : LabelJob) : FeasiblePass [] [j] :=
  FeasiblePass.cons [] j []
    ⟨0, by omega, fun b hb => absurd hb (List.not_mem_nil b)⟩
    (FeasiblePass.nil _)

lemma feasiblePass_length_one (js : List LabelJob) (h : js.length = 1) :
    FeasiblePass [] js := by
  cases js with
  | nil => simp at h
  | cons j js2 =>
    cases js2 with
    | nil => exact feasiblePass_singleton j
    | cons a b => simp at h

/-- Witness for C1: a one-marker pass (Berlin, a 10 × 10 label) satisfies
the feasibility hypothesis, and the theorem yields its pairwise
non-overlap conclusion. -/
theorem updateCityMarkers_no_collision_witness :
    FeasiblePass [] (jobsOf (fun _ => ((10 : ℝ), (10 : ℝ))) [berlin]) ∧
    List.Pairwise (fun a b => ¬ overlap a b)
      (updateCityMarkers (fun _ => ((10 : ℝ), (10 : ℝ))) [berlin]) := by
  have hlen : (jobsOf (fun _ => ((10 : ℝ), (10 : ℝ))) [berlin]).length = 1 := by
    simp [jobsOf, sortCities, jsSortWith, List.insertionSort, List.orderedInsert]
  have hf := feasiblePass_length_one _ hlen
  exact ⟨hf, updateCityMarkers_no_collision (fun _ => ((10 : ℝ), (10 : ℝ))) [berlin] hf⟩

/-- C2: for every anchor, label size and existing collision context, the
placement returns the first candidate, in generation order over the 12
ring candidates, whose bounding box overlaps no context box; and when all
12 candidates overlap some context box it returns the 12th (index 11)
candidate rather than failing. -/
theorem place_first_free_or_fallback :
    ∀ (x y w h : ℝ) (bboxes : List Rect),
      (∀ j, j < 12 → NoOverlap bboxes (ringCandidates x y w h j) →
        (∀ i, i < j → ¬ NoOverlap bboxes (ringCandidates x y w h i)) →
        place x y w h bboxes = ringCandidates x y w h j) ∧
      ((∀ j, j < 12 → ¬ NoOverlap bboxes (ringCandidates x y w h j)) →
        place x y w h bboxes = ringCandidates x y w h 11) := by
  intro x y w h bboxes
  constructor
  · intro j hj hfree hmin
    exact placeLoop_first bboxes (ringCandidates x y w h) j 0 (textBBox x y w h) j
      rfl (Nat.zero_le j) hj hfree (fun i h1 h2 => hmin i h2)
  · intro hall
    exact placeLoop_fallback bboxes (ringCandidates x y w h) 12 0 (textBBox x y w h)
      rfl (by omega) hall

/-- Witness for C2: with an empty context the first candidate is
returned; against one huge context box covering every candidate, the
12th candidate (index 11) is returned. -/
theorem place_first_free_or_fallback_witness :
    place 0 0 10 10 [] = ringCandidates 0 0 10 10 0 ∧
    place 0 0 10 10 [Rect.mk (-100000) (-100000) 200000 200000] =
      ringCandidates 0 0 10 10 11 := by
  constructor
  · exact (place_first_free_or_fallback 0 0 10 10 []).1 0 (by omega)
      (fun b hb => absurd hb (List.not_mem_nil b))
      (fun i hi => absurd hi (Nat.not_lt_zero i))
  · refine (place_first_free_or_fallback 0 0 10 10
      [Rect.mk (-100000) (-100000) 200000 200000]).2 ?_
    intro j hj hno
    apply hno (Rect.mk (-100000) (-100000) 200000 200000) (List.mem_singleton_self _)
    have hs1 := Real.sin_le_one (((j : ℝ) + 6) * (2 * Real.pi) / 12)
    have hs2 := Real.neg_one_le_sin (((j : ℝ) + 6) * (2 * Real.pi) / 12)
    have hc1 := Real.cos_le_one (((j : ℝ) + 6) * (2 * Real.pi) / 12)
    have hc2 := Real.neg_one_le_cos (((j : ℝ) + 6) * (2 * Real.pi) / 12)
    simp only [ringCandidates, ringOffset, textBBox, overlap]
    refine ⟨?_, ?_, ?_, ?_⟩ <;> nlinarith [hs1, hs2, hc1, hc2]

/-- C3 counterexample: the first ring candidate offset (k = 0) is
(0, -ry): in SVG coordinates, where y grows downward, it lies directly
above the anchor and not to its right, refuting "the first candidate
lies below-and-right of the anchor" (with semi-axes 15 and 13, i.e. a
10 × 6 label). -/
theorem ringOffset_cex :
    ringOffset 15 13 0 = ((0 : ℝ), (-13 : ℝ)) ∧
    ¬ ((ringOffset 15 13 0).1 > 0 ∧ (ringOffset 15 13 0).2 > 0) ∧
    (ringOffset 15 13 0).2 < 0 := by
  have h0 : ringOffset 15 13 0 = ((0 : ℝ), (-13 : ℝ)) := by
    unfold ringOffset
    have hθ : (((0 : ℕ) : ℝ) + 6) * (2 * Real.pi) / 12 = Real.pi := by
      push_cast
      ring
    rw [hθ, Real.sin_pi, Real.cos_pi]
    norm_num
  refine ⟨h0, ?_, ?_⟩ <;> rw [h0] <;> norm_num

/-- C3 amended: with semi-axes rx = width/2 + 10 and ry = height/2 + 10,
the k-th candidate offset is dx = -rx·sin(θ), dy = ry·cos(θ) at
θ = π + k·(2π/12) — evenly spaced with step 2π/12, starting at a fixed
half-rotation bias of π, so that the first candidate (k = 0) has offset
(0, -ry): directly above the anchor (SVG y grows downward), horizontally
centered. -/
theorem ringOffset_spec :
    ∀ (w h : ℝ) (k : ℕ),
      ringOffset (w / 2 + 10) (h / 2 + 10) k =
        (-(w / 2 + 10) * Real.sin (Real.pi + k * (2 * Real.pi / 12)),
         (h / 2 + 10) * Real.cos (Real.pi + k * (2 * Real.pi / 12))) ∧
      ringOffset (w / 2 + 10) (h / 2 + 10) 0 = (0, -(h / 2 + 10)) := by
  intro w h k
  constructor
  · unfold ringOffset
    have hθ : ((k : ℝ) + 6) * (2 * Real.pi) / 12 = Real.pi + k * (2 * Real.pi / 12) := by
      ring
    rw [hθ]
  · unfold ringOffset
    have hθ : (((0 : ℕ) : ℝ) + 6) * (2 * Real.pi) / 12 = Real.pi := by
      push_cast
      ring
    rw [hθ, Real.sin_pi, Real.cos_pi]
    norm_num

/-- C10 counterexample: a zero-width, zero-height box strictly inside a
rectangle does overlap it under the strict-inequality test (in both
argument orders), refuting "a degenerate box overlaps no rectangle". -/
theorem overlap_degenerate_cex :
    overlap (Rect.mk 0 0 10 10) (Rect.mk 5 5 0 0) ∧
    overlap (Rect.mk 5 5 0 0) (Rect.mk 0 0 10 10) := by
  constructor <;> refine ⟨by norm_num, by norm_num, by norm_num, by norm_num⟩

/-- C10 amended: the strict-inequality test makes two boxes that are
degenerate on the same axis (both zero width, or both zero height) never
overlap; but a zero-width-or-height box strictly inside a rectangle does
overlap it (see the counterexample), so such a label can be blocked and
its appended box can block later placements. -/
theorem overlap_same_axis_degenerate :
    ∀ a b : Rect,
      (a.width = 0 ∧ b.width = 0) ∨ (a.height = 0 ∧ b.height = 0) →
      ¬ overlap a b := by
  intro a b hdeg hov
  obtain ⟨h1, h2, h3, h4⟩ := hov
  rcases hdeg with ⟨ha, hb⟩ | ⟨ha, hb⟩
  · rw [hb] at h1
    rw [ha] at h2
    linarith
  · rw [hb] at h3
    rw [ha] at h4
    linarith

/-- Witness for C10 (amended): two zero-width boxes never overlap. -/
theorem overlap_same_axis_degenerate_witness :
    ¬ overlap (Rect.mk 0 0 0 5) (Rect.mk 3 0 0 5) :=
  overlap_same_axis_degenerate (Rect.mk 0 0 0 5) (Rect.mk 3 0 0 5) (Or.inl ⟨rfl, rfl⟩)

/-- C4: the projector is the pure affine map
x = surface.x + (lon - minLon)/(maxLon - minLon)·width,
y = surface.y + height - (lat - minLat)/(maxLat - minLat)·height, and
the four corners of the geographic bounding box project exactly onto the
four corners of the surface rectangle. -/
theorem geoToSvg_affine_corners :
    ∀ lat lon : ℚ,
      ((geoToSvg lat lon).1 =
          surface.x + (lon - MAP_MIN_LON) / (MAP_MAX_LON - MAP_MIN_LON) * surface.width ∧
        (geoToSvg lat lon).2 =
          surface.y + surface.height -
            (lat - MAP_MIN_LAT) / (MAP_MAX_LAT - MAP_MIN_LAT) * surface.height) ∧
      geoToSvg MAP_MAX_LAT MAP_MIN_LON = (surface.x, surface.y) ∧
      geoToSvg MAP_MAX_LAT MAP_MAX_LON = (surface.x + surface.width, surface.y) ∧
      geoToSvg MAP_MIN_LAT MAP_MIN_LON = (surface.x, surface.y + surface.height) ∧
      geoToSvg MAP_MIN_LAT MAP_MAX_LON =
        (surface.x + surface.width, surface.y + surface.height) := by
  intro lat lon
  refine ⟨⟨?_, ?_⟩, ?_, ?_, ?_, ?_⟩ <;>
    simp [geoToSvg, surface, MAP_PAD_X, MAP_PAD_Y, MAP_WIDTH, MAP_HEIGHT,
      MAP_MIN_LON, MAP_MAX_LON, MAP_MIN_LAT, MAP_MAX_LAT, Prod.ext_iff] <;>
    norm_num

/- ----------------------------------------------------------------- -/
/- Registry theorems                                                  -/
/- ----------------------------------------------------------------- -/

lemma addCity_marked (l : List City) (x : City) (h : isCityMarked l x.name = true) :
    addCity l x = l := by
  simp [addCity, h]

/-- C7: adding the same point twice leaves the registry identical to
adding it once — add is a no-op when a point with the same name is
already present — and adding "Berlin" twice to the empty registry leaves
its size at 1. -/
theorem addCity_idempotent :
    (∀ (l : List City) (x : City), addCity (addCity l x) x = addCity l x) ∧
    (∀ (l : List City) (x : City), isCityMarked l x.name = true → addCity l x = l) ∧
    (addCity (addCity [] berlin) berlin).length = 1 := by
  refine ⟨?_, addCity_marked, by decide⟩
  intro l x
  by_cases h : isCityMarked l x.name
  · rw [addCity_marked l x h, addCity_marked l x h]
  · have h1 : addCity l x = l ++ [x] := by
      simp [addCity, h]
    rw [h1]
    apply addCity_marked
    simp [isCityMarked]

/-- Witness for C7: applies the no-op clause at a registry already
containing Berlin. -/
theorem addCity_idempotent_witness :
    isCityMarked [berlin] berlin.name = true ∧ addCity [berlin] berlin = [berlin] :=
  ⟨by decide, addCity_idempotent.2.1 [berlin] berlin (by decide)⟩

/-- C8: on a registry that does not contain a point named `x.name`,
`add x` followed by `remove x.name` restores the registry exactly (same
members, same order). -/
theorem addCity_removeCity_inverse :
    ∀ (l : List City) (x : City), isCityMarked l x.name = false →
      removeCity (addCity l x) x.name = l := by
  intro l x h
  have hmem : ∀ c ∈ l, c.name ≠ x.name := by
    intro c hc heq
    have hmk : isCityMarked l x.name = true := by
      simp only [isCityMarked, List.any_eq_true]
      exact ⟨c, hc, by simp [heq]⟩
    rw [hmk] at h
    cases h
  have h1 : addCity l x = l ++ [x] := by
    simp [addCity, h]
  rw [h1]
  unfold removeCity
  rw [List.filter_append]
  have h2 : List.filter (fun c => c.name != x.name) [x] = [] := by
    simp
  rw [h2, List.append_nil]
  apply List.filter_eq_self.mpr
  intro c hc
  simpa [bne_iff_ne] using hmem c hc

/-- Witness for C8: add Berlin to a registry holding only the tied city
"A", then remove it again. -/
theorem addCity_removeCity_inverse_witness :
    isCityMarked [cityA] berlin.name = false ∧
    removeCity (addCity [cityA] berlin) berlin.name = [cityA] :=
  ⟨by decide, addCity_removeCity_inverse [cityA] berlin (by decide)⟩

/- ----------------------------------------------------------------- -/
/- Render-order theorems                                              -/
/- ----------------------------------------------------------------- -/

lemma cmpCities_lt_iff (a b : City) :
    cmpCities a b < 0 ↔ (b.lat < a.lat ∨ (b.lat = a.lat ∧ a.lon < b.lon)) := by
  unfold cmpCities
  split_ifs with h
  · constructor
    · intro hlt
      left
      linarith
    · intro hor
      rcases hor with h1 | ⟨h1, h2⟩
      · linarith
      · exact absurd h1 h
  · push_neg at h
    constructor
    · intro hlt
      exact Or.inr ⟨h, by linarith⟩
    · intro hor
      rcases hor with h1 | ⟨h1, h2⟩
      · rw [h] at h1
        exact absurd h1 (lt_irrefl _)
      · linarith

lemma cmpCities_le_total :
    ∀ a b : City, ¬ cmpCities b a < 0 ∨ ¬ cmpCities a b < 0 := by
  intro a b
  by_cases h : cmpCities b a < 0
  · right
    rw [cmpCities_lt_iff] at h ⊢
    push_neg
    rcases h with h1 | ⟨h1, h2⟩
    · constructor
      · linarith
      · intro heq
        linarith
    · constructor
      · linarith
      · intro heq
        linarith
  · exact Or.inl h

lemma cmpCities_le_trans :
    ∀ a b c : City, ¬ cmpCities b a < 0 → ¬ cmpCities c b < 0 → ¬ cmpCities c a < 0 := by
  intro a b c hab hbc
  rw [cmpCities_lt_iff] at hab hbc ⊢
  push_neg at hab hbc ⊢
  obtain ⟨h1, h2⟩ := hab
  obtain ⟨h3, h4⟩ := hbc
  constructor
  · linarith
  · intro heq
    have hba : a.lat = b.lat := by linarith
    have hcb : b.lat = c.lat := by linarith
    have := h2 hba
    have := h4 hcb
    linarith

lemma cmpCities_strict (a b : City) (hle : ¬ cmpCities b a < 0)
    (hne : (a.lat, a.lon) ≠ (b.lat, b.lon)) :
    b.lat < a.lat ∨ (b.lat = a.lat ∧ a.lon < b.lon) := by
  rw [cmpCities_lt_iff] at hle
  push_neg at hle
  obtain ⟨h1, h2⟩ := hle
  rcases lt_or_eq_of_le h1 with h | h
  · exact Or.inl h
  · refine Or.inr ⟨h, ?_⟩
    rcases lt_or_eq_of_le (h2 h.symm) with h4 | h4
    · exact h4
    · exact absurd (Prod.ext h.symm h4) hne

lemma sortCities_pair_eval (x y : City) (h : ¬ cmpCities y x < 0) :
    sortCities [x, y] = [x, y] := by
  unfold sortCities jsSortWith
  simp only [List.insertionSort, List.orderedInsert]
  rw [if_pos h]

/-- C9 counterexample: two distinct cities with equal latitude and
longitude keep their arrival order in the render sort (the comparator has
no name tiebreak and JavaScript sort is stable), so the processed
sequence is not the claimed latitude-longitude-name total order, and the
same two-element marker set yields two different processing sequences. -/
theorem sortCities_tie_cex :
    sortCities [cityB, cityA] = [cityB, cityA] ∧
    sortCities [cityA, cityB] = [cityA, cityB] ∧
    strLtb cityA.name cityB.name = true ∧
    ([cityB, cityA] : List City) ≠ [cityA, cityB] := by
  have h1 : ¬ cmpCities cityA cityB < 0 := by
    norm_num [cmpCities, cityA, cityB]
  have h2 : ¬ cmpCities cityB cityA < 0 := by
    norm_num [cmpCities, cityA, cityB]
  exact ⟨sortCities_pair_eval cityB cityA h1, sortCities_pair_eval cityA cityB h2,
    by decide, by decide⟩

/-- C9 amended: every render pass sorts markers by descending latitude,
then ascending longitude; markers tied on both keep their previous array
order (stable sort, no name tiebreak). When the markers have pairwise
distinct (lat, lon) pairs this is a total order, so any two
registry lists with the same members are processed as the same
sequence. -/
theorem sortCities_deterministic :
    ∀ l1 l2 : List City, l1.Perm l2 →
      l1.Pairwise (fun a b => (a.lat, a.lon) ≠ (b.lat, b.lon)) →
      sortCities l1 = sortCities l2 ∧
      (sortCities l1).Sorted
        (fun a b => b.lat < a.lat ∨ (b.lat = a.lat ∧ a.lon < b.lon)) := by
  intro l1 l2 hp hpair
  haveI : IsTotal City (fun a b => ¬ cmpCities b a < 0) := ⟨cmpCities_le_total⟩
  haveI : IsTrans City (fun a b => ¬ cmpCities b a < 0) :=
    ⟨fun a b c => cmpCities_le_trans a b c⟩
  have hs1 : (sortCities l1).Sorted (fun a b => ¬ cmpCities b a < 0) := by
    unfold sortCities jsSortWith
    exact List.sorted_insertionSort _ _
  have hs2 : (sortCities l2).Sorted (fun a b => ¬ cmpCities b a < 0) := by
    unfold sortCities jsSortWith
    exact List.sorted_insertionSort _ _
  have hperm1 : (sortCities l1).Perm l1 := by
    unfold sortCities jsSortWith
    exact List.perm_insertionSort _ _
  have hperm2 : (sortCities l2).Perm l2 := by
    unfold sortCities jsSortWith
    exact List.perm_insertionSort _ _
  have hpair2 : l2.Pairwise (fun a b => (a.lat, a.lon) ≠ (b.lat, b.lon)) :=
    (hp.pairwise_iff (fun h => Ne.symm h)).mp hpair
  have hpair_s1 : (sortCities l1).Pairwise (fun a b => (a.lat, a.lon) ≠ (b.lat, b.lon)) :=
    (hperm1.pairwise_iff (fun h => Ne.symm h)).mpr hpair
  have hpair_s2 : (sortCities l2).Pairwise (fun a b => (a.lat, a.lon) ≠ (b.lat, b.lon)) :=
    (hperm2.pairwise_iff (fun h => Ne.symm h)).mpr hpair2
  have hstrict1 : (sortCities l1).Sorted
      (fun a b => b.lat < a.lat ∨ (b.lat = a.lat ∧ a.lon < b.lon)) :=
    (hs1.and hpair_s1).imp (fun h => cmpCities_strict _ _ h.1 h.2)
  have hstrict2 : (sortCities l2).Sorted
      (fun a b => b.lat < a.lat ∨ (b.lat = a.lat ∧ a.lon < b.lon)) :=
    (hs2.and hpair_s2).imp (fun h => cmpCities_strict _ _ h.1 h.2)
  haveI : IsAntisymm City (fun a b => b.lat < a.lat ∨ (b.lat = a.lat ∧ a.lon < b.lon)) :=
    ⟨fun a b h1 h2 => False.elim (by
      rcases h1 with h | ⟨he, hl⟩ <;> rcases h2 with h2 | ⟨he2, hl2⟩ <;> linarith)⟩
  have hperm : (sortCities l1).Perm (sortCities l2) := hperm1.trans (hp.trans hperm2.symm)
  exact ⟨List.eq_of_perm_of_sorted hperm hstrict1 hstrict2, hstrict1⟩

/-- Witness for C9 (amended): Berlin and Aachen have distinct
coordinates, and the theorem orders their pass sequence. -/
theorem sortCities_deterministic_witness :
    ([berlin, aachen] : List City).Pairwise
      (fun a b => (a.lat, a.lon) ≠ (b.lat, b.lon)) ∧
    sortCities [berlin, aachen] = sortCities [berlin, aachen] ∧
    (sortCities [berlin, aachen]).Sorted
      (fun a b => b.lat < a.lat ∨ (b.lat = a.lat ∧ a.lon < b.lon)) := by
  have hpair : ([berlin, aachen] : List City).Pairwise
      (fun a b => (a.lat, a.lon) ≠ (b.lat, b.lon)) := by decide
  have h := sortCities_deterministic [berlin, aachen] [berlin, aachen]
    (List.Perm.refl _) hpair
  exact ⟨hpair, h.1, h.2⟩

/- ----------------------------------------------------------------- -/
/- Codec theorems                                                     -/
/- ----------------------------------------------------------------- -/

lemma charListLtb_asymm :
    ∀ as bs : List Char, charListLtb as bs = true → charListLtb bs as = false := by
  intro as
  induction as with
  | nil =>
    intro bs h
    cases bs with
    | nil => simp [charListLtb] at h
    | cons b bs => simp [charListLtb]
  | cons a as ih =>
    intro bs h
    cases bs with
    | nil => simp [charListLtb] at h
    | cons b bs =>
      simp only [charListLtb] at h ⊢
      by_cases h1 : a.toNat < b.toNat
      · rw [if_neg (by omega), if_pos h1]
      · rw [if_neg h1] at h
        by_cases h2 : b.toNat < a.toNat
        · rw [if_pos h2] at h
          exact absurd h (by simp)
        · rw [if_neg h2] at h
          rw [if_neg h2, if_neg h1]
          exact ih bs h

lemma charListLtb_le_trans :
    ∀ as bs cs : List Char, charListLtb bs as = false → charListLtb cs bs = false →
      charListLtb cs as = false := by
  intro as
  induction as with
  | nil =>
    intro bs cs h1 h2
    cases cs with
    | nil => rfl
    | cons c cs => rfl
  | cons a as ih =>
    intro bs cs h1 h2
    cases bs with
    | nil => simp [charListLtb] at h1
    | cons b bs =>
      cases cs with
      | nil => simp [charListLtb] at h2
      | cons c cs =>
        simp only [charListLtb] at h1 h2 ⊢
        by_cases hba : b.toNat < a.toNat
        · rw [if_pos hba] at h1
          exact absurd h1 (by simp)
        · rw [if_neg hba] at h1
          by_cases hcb : c.toNat < b.toNat
          · rw [if_pos hcb] at h2
            exact absurd h2 (by simp)
          · rw [if_neg hcb] at h2
            have hca : ¬ c.toNat < a.toNat := by omega
            rw [if_neg hca]
            by_cases hac : a.toNat < c.toNat
            · rw [if_pos hac]
            · rw [if_neg hac]
              rw [if_neg (by omega)] at h1
              rw [if_neg (by omega)] at h2
              exact ih bs cs h1 h2

lemma compareNames_lt_iff (a b : City) :
    compareNames a b < 0 ↔ strLtb a.name b.name = true := by
  unfold compareNames
  split_ifs with h1 h2
  · exact iff_of_true (by norm_num) h1
  · exact iff_of_false (by norm_num) h1
  · exact iff_of_false (by norm_num) h1

lemma compareNames_le_total :
    ∀ a b : City, ¬ compareNames b a < 0 ∨ ¬ compareNames a b < 0 := by
  intro a b
  rw [compareNames_lt_iff, compareNames_lt_iff]
  by_cases h : strLtb a.name b.name = true
  · left
    simp [strLtb, charListLtb_asymm _ _ h]
  · exact Or.inr h

lemma compareNames_le_trans :
    ∀ a b c : City, ¬ compareNames b a < 0 → ¬ compareNames c b < 0 →
      ¬ compareNames c a < 0 := by
  intro a b c hab hbc
  rw [compareNames_lt_iff] at hab hbc ⊢
  rw [Bool.not_eq_true] at hab hbc ⊢
  exact charListLtb_le_trans _ _ _ hab hbc

/-- C5 counterexample: with Berlin (lat 52.52) and Aachen (lat 50.776)
marked, the registry's render order is [Berlin, Aachen] (descending
latitude), but the encoded parameter is "Aachen,Berlin" — ascending name
order — so the encoding does not list names in the registry's
latitude-based fixed sort order. -/
theorem updateShareURL_registry_order_cex :
    updateShareURL [berlin, aachen] = some "Aachen,Berlin" ∧
    sortCities [berlin, aachen] = [berlin, aachen] ∧
    String.intercalate ","
      ((sortCities [berlin, aachen]).map (fun c => encodeURIComponent c.name)) =
      "Berlin,Aachen" ∧
    updateShareURL [berlin, aachen] ≠
      some (String.intercalate ","
        ((sortCities [berlin, aachen]).map (fun c => encodeURIComponent c.name))) := by
  have hAB : ¬ cmpCities aachen berlin < 0 := by
    norm_num [cmpCities, berlin, aachen]
  have hsort : sortCities [berlin, aachen] = [berlin, aachen] :=
    sortCities_pair_eval berlin aachen hAB
  refine ⟨by decide, hsort, ?_, ?_⟩
  · rw [hsort]
    decide
  · rw [hsort]
    decide

/-- C5 amended: a non-empty marker set encodes to the comma-joined
percent-escaped names in ascending name order (the order of
`compareNames`, also used for the displayed city list), not the
latitude-based render order; the empty set encodes to an absent
parameter (`none`), never to the empty string. -/
theorem updateShareURL_spec :
    ∀ l : List City,
      (l = [] → updateShareURL l = none) ∧
      (l ≠ [] → ∃ l' : List City, l'.Perm l ∧
        l'.Sorted (fun a b => strLtb b.name a.name = false) ∧
        updateShareURL l = some (String.intercalate ","
          (l'.map (fun c => encodeURIComponent c.name)))) := by
  intro l
  constructor
  · intro h
    subst h
    rfl
  · intro h
    haveI : IsTotal City (fun a b => ¬ compareNames b a < 0) := ⟨compareNames_le_total⟩
    haveI : IsTrans City (fun a b => ¬ compareNames b a < 0) :=
      ⟨fun a b c => compareNames_le_trans a b c⟩
    refine ⟨sortByName l, ?_, ?_, ?_⟩
    · unfold sortByName jsSortWith
      exact List.perm_insertionSort _ _
    · have hs : (sortByName l).Sorted (fun a b => ¬ compareNames b a < 0) := by
        unfold sortByName jsSortWith
        exact List.sorted_insertionSort _ _
      exact hs.imp (fun hab => by
        rw [compareNames_lt_iff, Bool.not_eq_true] at hab
        exact hab)
    · unfold updateShareURL
      rw [if_neg (by simp [List.length_eq_zero, h])]

/-- Witness for C5 (amended): the empty set gives an absent parameter;
the singleton set Berlin is listed name-sorted. -/
theorem updateShareURL_spec_witness :
    updateShareURL ([] : List City) = none ∧
    (∃ l' : List City, l'.Perm [berlin] ∧
      l'.Sorted (fun a b => strLtb b.name a.name = false) ∧
      updateShareURL [berlin] = some (String.intercalate ","
        (l'.map (fun c => encodeURIComponent c.name)))) :=
  ⟨(updateShareURL_spec []).1 rfl, (updateShareURL_spec [berlin]).2 (by simp)⟩

/-- C6: decoding looks every comma-split, percent-unescaped token up in
the catalog by exact name and silently drops tokens with no match — every
decoded entry is a catalog member — and decoding "Berlin,Nonexistent"
against a catalog holding only Berlin yields exactly [Berlin]. -/
theorem restoreFromURL_spec :
    (∀ (s : String) (catalog : List City) (c : City),
      c ∈ restoreFromURL s catalog → c ∈ catalog) ∧
    restoreFromURL "Berlin,Nonexistent" [berlin] = [berlin] := by
  constructor
  · intro s catalog c hc
    unfold restoreFromURL at hc
    rw [List.mem_filterMap] at hc
    obtain ⟨n, hn, hf⟩ := hc
    exact List.mem_of_find?_eq_some hf
  · decide

/-- Witness for C6: the decoded Berlin entry is indeed a member of the
catalog. -/
theorem restoreFromURL_spec_witness :
    berlin ∈ restoreFromURL "Berlin,Nonexistent" [berlin] ∧
    berlin ∈ ([berlin] : List City) := by
  have hmem : berlin ∈ restoreFromURL "Berlin,Nonexistent" [berlin] := by decide
  exact ⟨hmem, restoreFromURL_spec.1 "Berlin,Nonexistent" [berlin] berlin hmem⟩
